import Mathlib

/-!
Verification of the h5features repository against its specification.

The development shallowly embeds two modules:

* `H5f2` models `h5features2/writer.py` (the `Writer` class): the file is a
  map from group names to group states, and every HDF5 operation performed by
  the writer is recorded in an event trace.  The bodies of the Items / Times /
  Features / Index helper classes are not part of the sources, so their
  effects (`create`, `write`, `is_compatible`) are modelled from the
  specification and clearly marked as such.

* `H5f1` models `h5features/h5features.py` (the legacy top-level `read`,
  `write` and `simple_write` wrappers) together with a spec-modelled storage
  layout (items / times / features / cumulative index datasets) for the
  missing `Reader`, `Writer`, `Items`, `Times` and `Features` classes of that
  package.

Floats (`chunk_size`, times, feature values) are embedded as rationals.
-/

/-- Python exception kinds raised by the library, as described in the
error-handling design: `IOError`, `ValidationError` (`ValueError`-like input
rejection), `NotImplementedError` and `KeyError`. -/
inductive HErr where
  | validation (msg : String)
  | io (msg : String)
  | notImplemented
  | keyError (msg : String)
deriving DecidableEq, Repr

namespace H5f2

/-- One observable HDF5 side effect performed by the writer: creating a group,
setting a group attribute, creating a dataset (with its chunk row count), or
appending rows to a dataset. -/
inductive Event where
  | createGroup (g : String)
  | setAttr (g a : String)
  | createDS (g d : String) (chunkRows : Nat)
  | writeDS (g d : String)
deriving DecidableEq, Repr

/-- State of one HDF5 group: its `version` attribute, its `format` attribute
(dense or sparse storage mode), and its datasets as (name, row count) pairs. -/
structure GroupState where
  version : String
  format : String
  datasets : List (String × Nat)
deriving DecidableEq, Repr

/-- An HDF5 file: association list from group names to group states. -/
abbrev FileState := List (String × GroupState)

/-- Look a group up by name (first match). -/
def findGroup : FileState → String → Option GroupState
  | [], _ => none
  | (n, g) :: rest, k => if n = k then some g else findGroup rest k

/-- Replace the state of an existing group. -/
def updateGroup : FileState → String → GroupState → FileState
  | [], _, _ => []
  | (n, g) :: rest, k, g2 => if n = k then (n, g2) :: rest else (n, g) :: updateGroup rest k g2

/-- Add a new group to the file. -/
def addGroup (fs : FileState) (k : String) (g : GroupState) : FileState :=
  (k, g) :: fs

/-- Whether the group holds a dataset of the given name
(`d in group` in the Python code). -/
def hasDS (g : GroupState) (name : String) : Bool :=
  (g.datasets.map Prod.fst).contains name

/-- Current length (row count) of a dataset of the group. -/
def dsLen (g : GroupState) (name : String) : Nat :=
  (g.datasets.lookup name).getD 0

/-- Create an empty dataset in the group. -/
def addDS (g : GroupState) (name : String) : GroupState :=
  { g with datasets := g.datasets ++ [(name, 0)] }

/-- Append `n` rows to a dataset of the group. -/
def appendDS (g : GroupState) (name : String) (n : Nat) : GroupState :=
  { g with datasets := g.datasets.map (fun p => if p.1 = name then (p.1, p.2 + n) else p) }

/-- Name of the index dataset (`Index.name`); the on-disk layout in the
specification calls it `index`. -/
def indexName : String := "index"

/-- Modelled from the spec: `h5features2.chunk.nb_lines` — the number of rows
whose estimated size (`itemBytes` bytes per cell, `nCols` cells per row) fits
in a byte budget given in kilobytes. -/
def nbLines (itemBytes nCols : Nat) (sizeKB : Rat) : Nat :=
  (Rat.floor (sizeKB * 1000 / ((itemBytes : Rat) * (nCols : Rat)))).toNat

/-- Modelled from the spec: `Features.create` returns the number of rows
placed in one on-disk chunk, computed from an estimate of bytes-per-row equal
to `dim` times the 8-byte element size, floored so a chunk is never below the
8 KB minimum. -/
def featRowsPerChunk (dim : Nat) (cs : Rat) : Nat :=
  max (nbLines 8 dim (cs * 1000)) (nbLines 8 dim 8)

/-- Modelled from the spec: `Index.create` allocates the on-disk offset
dataset with a row chunking derived from the chunk byte budget (8-byte
offsets, one column). -/
def indexRowsPerChunk (cs : Rat) : Nat :=
  nbLines 8 1 (cs * 1000)

/-- The in-memory data handed to `Writer.write`: the dataset names of the
items / times / features objects, the storage mode of the features
(`dformat`), the feature dimension, and the row counts the `write` methods of
the three objects would append. -/
structure WData where
  itemsName : String
  timesName : String
  featName : String
  dformat : String
  dim : Nat
  nItems : Nat
  featRows : Nat
  timesRows : Nat
deriving DecidableEq, Repr

/-- The `Writer` object: its format version, target filename and chunk size
in megabytes. -/
structure Writer where
  version : String
  filename : String
  chunk_size : Rat
deriving DecidableEq, Repr

/-- Embedding of `Writer.__init__`: raise `IOError` if the file exists but is
not HDF5, then raise `IOError` if the chunk size is below 8 KB (0.008 MB).
The constructor performs no HDF5 write: the file state is returned
unchanged in every branch, mirroring that `__init__` contains no call that
opens the file for writing, creates a dataset or modifies an attribute. -/
def Writer.init (filename : String) (fileExists isHdf5 : Bool) (chunk_size : Rat)
    (fs : FileState) : Except HErr Writer × FileState :=
  if fileExists && !isHdf5 then (.error (.io "is not a HDF5 file"), fs)
  else if chunk_size < 8/1000 then (.error (.io "chunk size is below 8 Ko"), fs)
  else (.ok ⟨"1.0", filename, chunk_size⟩, fs)

/-- Embedding of `Writer.is_same_version`. -/
def Writer.is_same_version (w : Writer) (g : GroupState) : Bool :=
  g.version == w.version

/-- Embedding of `Writer.is_same_datasets`: the items, times, features and
index dataset names must all be present in the group, plus `frames` and
`coordinates` when the new data is sparse. -/
def Writer.is_same_datasets (w : Writer) (g : GroupState) (data : WData) : Bool :=
  let base := [data.itemsName, data.timesName, data.featName, indexName]
  let ds := if data.dformat == "sparse" then base ++ ["frames", "coordinates"] else base
  ds.all (hasDS g)

/-- Modelled from the spec: `Features.is_compatible` — the group's declared
storage mode (its `format` attribute, dense or sparse) matches the new data's
mode, and the features dataset is present. -/
def featIsCompatible (data : WData) (g : GroupState) : Bool :=
  g.format == data.dformat && hasDS g data.featName

/-- Modelled from the spec: `Items.is_compatible` / `Times.is_compatible` —
the object's dataset is present in the group. -/
def dsIsCompatible (name : String) (g : GroupState) : Bool :=
  hasDS g name

/-- Embedding of `Writer.is_compatible`: same version, same dataset names, and
every data object compatible with the group. -/
def Writer.is_compatible (w : Writer) (g : GroupState) (data : WData) : Bool :=
  w.is_same_version g && w.is_same_datasets g data &&
    (featIsCompatible data g && dsIsCompatible data.itemsName g &&
      dsIsCompatible data.timesName g)

/-- Modelled from the spec: `Index.write` appends one cumulative offset per
new item; the stored offset table has length number-of-items + 1, so the
first write also stores the leading zero offset. -/
def indexWriteRows (g : GroupState) (nItems : Nat) : Nat :=
  if dsLen g indexName = 0 then nItems + 1 else nItems

/-- Result of a `Writer.write` call: the raised exception if any, the file
state afterwards, and the trace of HDF5 side effects that were performed
before returning or raising. -/
structure WResult where
  err : Option HErr
  fs : FileState
  events : List Event
deriving Repr

/-- Embedding of `Writer.write`.  If the group exists, the compatibility
check runs first and an incompatibility raises `IOError` with nothing
written; otherwise the group is created (version attribute, then dataset
creation via `features.create`, `times.create`, `items.create`,
`index.create`).  In both success paths the data is then appended in the
order index, items, features, times.  The `setAttr format` event and the
chunk row counts of the created datasets are the spec-modelled effects of the
helper classes' `create` methods. -/
def Writer.write (w : Writer) (data : WData) (groupname : String) (fs : FileState) : WResult :=
  match findGroup fs groupname with
  | some group =>
    if !(w.is_compatible group data) then
      { err := some (.io "data is not appendable to the group"), fs := fs, events := [] }
    else
      let g1 := appendDS group indexName (indexWriteRows group data.nItems)
      let g2 := appendDS g1 data.itemsName data.nItems
      let g3 := appendDS g2 data.featName data.featRows
      let g4 := appendDS g3 data.timesName data.timesRows
      { err := none
        fs := updateGroup fs groupname g4
        events := [.writeDS groupname indexName, .writeDS groupname data.itemsName,
                   .writeDS groupname data.featName, .writeDS groupname data.timesName] }
  | none =>
    let nbInChunks := featRowsPerChunk data.dim w.chunk_size
    let nbLinesByChunk := max 10 (nbLines 20 1 (w.chunk_size * 1000))
    let g0 : GroupState := ⟨w.version, data.dformat, []⟩
    let g1 := addDS g0 data.featName
    let g2 := addDS g1 data.timesName
    let g3 := addDS g2 data.itemsName
    let g4 := addDS g3 indexName
    let g5 := appendDS g4 indexName (indexWriteRows g4 data.nItems)
    let g6 := appendDS g5 data.itemsName data.nItems
    let g7 := appendDS g6 data.featName data.featRows
    let g8 := appendDS g7 data.timesName data.timesRows
    { err := none
      fs := addGroup fs groupname g8
      events := [.createGroup groupname, .setAttr groupname "version",
                 .setAttr groupname "format",
                 .createDS groupname data.featName nbInChunks,
                 .createDS groupname data.timesName nbInChunks,
                 .createDS groupname data.itemsName nbLinesByChunk,
                 .createDS groupname indexName (indexRowsPerChunk w.chunk_size),
                 .writeDS groupname indexName, .writeDS groupname data.itemsName,
                 .writeDS groupname data.featName, .writeDS groupname data.timesName] }

/-- Whether the event is a dataset append. -/
def isWriteEv : Event → Bool
  | .writeDS _ _ => true
  | _ => false

/-- Whether the except value is a raised `IOError`. -/
def isIOErr {α : Type} : Except HErr α → Bool
  | .error (.io _) => true
  | _ => false

/-- A concrete writer used to instantiate the theorems below. -/
def wrEx : Writer := ⟨"1.0", "test.h5", 1/10⟩

/-- A concrete group whose version attribute differs from the writer's. -/
def grEx : GroupState := ⟨"0.9", "dense", [("items", 2), ("times", 2), ("features", 2), ("index", 3)]⟩

/-- A concrete group compatible with `wrEx` and `dataEx`. -/
def grOk : GroupState := ⟨"1.0", "dense", [("items", 2), ("times", 2), ("features", 2), ("index", 3)]⟩

/-- Concrete write data: 1 item, 4 rows of dimension-3 dense features. -/
def dataEx : WData := ⟨"items", "times", "features", "dense", 3, 1, 4, 4⟩

/-- A concrete file containing the incompatible group. -/
def fsEx : FileState := [("features", grEx)]

end H5f2

namespace H5f1

/-- Modelled from the spec: the persisted layout of one group of the legacy
`h5features` package — version and format attributes, the item identifiers in
insertion order, the row-concatenated times and features datasets, and the
cumulative row-offset index of length number-of-items + 1. -/
structure SGroup where
  version : String
  format : String
  items : List String
  times : List (List Rat)
  features : List (List Rat)
  index : List Nat
deriving DecidableEq, Repr

/-- A container file: association list from group names to groups. -/
abbrev HFile := List (String × SGroup)

/-- Look a group up by name (first match). -/
def findGroup : HFile → String → Option SGroup
  | [], _ => none
  | (n, g) :: rest, k => if n = k then some g else findGroup rest k

/-- Replace the state of an existing group. -/
def updateGroup : HFile → String → SGroup → HFile
  | [], _, _ => []
  | (n, g) :: rest, k, g2 => if n = k then (n, g2) :: rest else (n, g) :: updateGroup rest k g2

/-- Uniqueness of the item identifiers. -/
def uniqueItems : List String → Bool
  | [] => true
  | x :: rest => !(decide (x ∈ rest)) && uniqueItems rest

/-- Modelled from the spec: `Items` construction fails with `ValidationError`
if any identifier is empty or non-unique. -/
def validItems (its : List String) : Bool :=
  its.all (fun s => !(s.isEmpty)) && uniqueItems its

/-- Whether a list of time values is non-decreasing. -/
def nonDecreasing : List Rat → Bool
  | [] => true
  | [_] => true
  | a :: b :: rest => decide (a ≤ b) && nonDecreasing (b :: rest)

/-- Modelled from the spec: `Times` construction fails with `ValidationError`
unless each per-item array has rank 1 (one center value per frame) or rank 2
with exactly two columns (window start and end), uniformly across items, and
each item's times are non-decreasing. -/
def validTimes (td : List (List (List Rat))) : Bool :=
  (td.all (fun rows => rows.all (fun r => r.length == 1)) ||
    td.all (fun rows => rows.all (fun r => r.length == 2))) &&
  td.all (fun rows => nonDecreasing (rows.map (fun r => r.headD 0)))

/-- Whether all feature rows across all items share one column count. -/
def sameCols (fd : List (List (List Rat))) : Bool :=
  match fd.flatten with
  | [] => true
  | r :: rest => rest.all (fun x => x.length == r.length)

/-- Whether each item's feature row count equals its times row count. -/
def rowsMatch (fd td : List (List (List Rat))) : Bool :=
  fd.length == td.length &&
  (fd.zip td).all (fun p => p.1.length == p.2.length)

/-- Modelled from the spec: dense `Features` construction fails with
`ValidationError` on ragged column counts or on a mismatch between an item's
row count and its corresponding `Times` entry's row count (the times rows are
passed to the validator for that cross check). -/
def validFeatures (fd td : List (List (List Rat))) : Bool :=
  sameCols fd && rowsMatch fd td

/-- Embedding of `parse_dformat`: only `dense` and `sparse` are accepted. -/
def parse_dformat_ok (d : String) : Bool :=
  d == "dense" || d == "sparse"

/-- Modelled from the spec: the cumulative index of a list of per-item row
counts — entry `i` is the total row count of items `0..i-1` and the last
entry is the total row count. -/
def cumIndex : List Nat → List Nat
  | [] => [0]
  | n :: rest => 0 :: (cumIndex rest).map (fun m => n + m)

/-- Rows `lo` (inclusive) to `hi` (exclusive) of a dataset. -/
def sliceRows {α : Type} (rows : List α) (lo hi : Nat) : List α :=
  (rows.drop lo).take (hi - lo)

/-- Modelled from the spec: creating a fresh group stores the version and
format attributes, the items in insertion order, the row-concatenated times
and features, and the cumulative index built from the per-item row counts. -/
def mkGroup (its : List String) (td fd : List (List (List Rat))) (dformat : String) : SGroup :=
  ⟨"1.0", dformat, its, td.flatten, fd.flatten, cumIndex (fd.map List.length)⟩

/-- Last stored offset of the group (its total row count). -/
def lastOffset (g : SGroup) : Nat :=
  g.index.getLastD 0

/-- Modelled from the spec: appending to an existing group extends the items,
times and features datasets and appends one cumulative offset per new item,
never modifying prior offsets. -/
def appendGroup (g : SGroup) (its : List String) (td fd : List (List (List Rat))) : SGroup :=
  { g with
      items := g.items ++ its
      times := g.times ++ td.flatten
      features := g.features ++ fd.flatten
      index := g.index ++
        ((cumIndex (fd.map List.length)).tail.map (fun m => lastOffset g + m)) }

/-- Modelled from the spec: the append compatibility check of the legacy
writer — stored version equals the current version and the group's declared
storage mode matches the new data's mode. -/
def compatGroup (g : SGroup) (dformat : String) : Bool :=
  g.version == "1.0" && g.format == dformat

/-- Result of a top-level `write` call: the raised exception if any, the file
afterwards, and the names of the file operations performed, in order. -/
structure BResult where
  err : Option HErr
  fs : HFile
  ops : List String
deriving Repr

/-- Embedding of the top-level `write`: construct and validate the `Items`,
`Times` and `Features` objects in that order (raising `ValidationError` on
malformed data and `NotImplementedError` on the sparse storage path), then
construct the `Writer` (chunk-size floor check) and let it open the file and
create or append the group.  No file operation happens before all
validations pass. -/
def write (filename groupname : String) (items_data : List String)
    (times_data features_data : List (List (List Rat)))
    (dformat : String) (chunk_size sparsity : Rat) (fs : HFile) : BResult :=
  if !(validItems items_data) then ⟨some (.validation "items"), fs, []⟩
  else if !(validTimes times_data) then ⟨some (.validation "times"), fs, []⟩
  else if !(parse_dformat_ok dformat) then ⟨some (.io "bad dformat"), fs, []⟩
  else if dformat == "sparse" then ⟨some .notImplemented, fs, []⟩
  else if !(validFeatures features_data times_data) then ⟨some (.validation "features"), fs, []⟩
  else if chunk_size < 8/1000 then ⟨some (.io "chunk size is below 8 Ko"), fs, []⟩
  else
    match findGroup fs groupname with
    | some g =>
      if compatGroup g dformat then
        ⟨none, updateGroup fs groupname (appendGroup g items_data times_data features_data),
          ["open", "append"]⟩
      else ⟨some (.io "data is not appendable to the group"), fs, ["open"]⟩
    | none =>
      ⟨none, (groupname, mkGroup items_data times_data features_data dformat) :: fs,
        ["open", "create-group", "append"]⟩

/-- Embedding of `simple_write`: the single-item convenience wrapper, calling
`write` with a one-element item list (the source's `item` parameter defaults
to the string `item`), the dense format and the default chunk size 0.1 and
sparsity 0.1. -/
def simple_write (filename group : String) (times features : List (List Rat))
    (item : String) (fs : HFile) : BResult :=
  write filename group [item] [times] [features] "dense" (1/10) (1/10) fs

/-- Position of an item identifier in the item list (first occurrence). -/
def idxOf : List String → String → Option Nat
  | [], _ => none
  | x :: rest, k => if x = k then some 0 else (idxOf rest k).map (fun n => n + 1)

/-- Data returned by the reader: the selected items with their per-item times
rows and features rows. -/
structure RData where
  items : List String
  times : List (List (List Rat))
  features : List (List (List Rat))
deriving DecidableEq, Repr

/-- Whether a times row lies within the optional lower and upper bounds. -/
def inBounds (ft tu : Option Rat) (r : List Rat) : Bool :=
  (match ft with | none => true | some t => decide (t ≤ r.headD 0)) &&
  (match tu with | none => true | some t => decide (r.headD 0 ≤ t))

/-- Keep only the rows whose times row satisfies the predicate, in the times
and features slices of one item. -/
def filterRows (p : List Rat → Bool) (tm fe : List (List Rat)) :
    List (List Rat) × List (List Rat) :=
  let kept := (tm.zip fe).filter (fun q => p q.1)
  (kept.map Prod.fst, kept.map Prod.snd)

/-- Modelled from the spec: `Reader.read` — default `from_item` to the first
stored item and `to_item` to `from_item` when that was given, otherwise to
the last stored item; locate both items (an unknown name fails with
`KeyError`, an inverted range with `ValidationError`); slice each selected
item's rows out of the times and features datasets using consecutive index
offsets; and restrict the first selected item's rows to times at or after
`from_time` and the last selected item's rows to times at or before
`to_time`. -/
def readGroup (g : SGroup) (from_item to_item : Option String)
    (from_time to_time : Option Rat) : Except HErr RData :=
  let fiName := match from_item with | some s => some s | none => g.items.head?
  let tiName := match to_item with
    | some s => some s
    | none => match from_item with | some s => some s | none => g.items.getLast?
  match fiName, tiName with
  | some fi, some ti =>
    match idxOf g.items fi, idxOf g.items ti with
    | some i0, some i1 =>
      if i1 < i0 then .error (.validation "to_item is before from_item")
      else
        let sel := (List.range (i1 + 1 - i0)).map (fun k => i0 + k)
        let its := sel.map (fun i => g.items.getD i "")
        let tms := sel.map (fun i =>
          sliceRows g.times (g.index.getD i 0) (g.index.getD (i + 1) 0))
        let fts := sel.map (fun i =>
          sliceRows g.features (g.index.getD i 0) (g.index.getD (i + 1) 0))
        match from_time, to_time with
        | none, none => .ok ⟨its, tms, fts⟩
        | ft, tu =>
          let n := sel.length
          let filtered := (tms.zip fts).enum.map (fun q =>
            filterRows
              (inBounds (if q.1 = 0 then ft else none) (if q.1 = n - 1 then tu else none))
              q.2.1 q.2.2)
          .ok ⟨its, filtered.map Prod.fst, filtered.map Prod.snd⟩
    | _, _ => .error (.keyError "item not found")
  | _, _ => .error (.keyError "item not found")

/-- Modelled from the spec: `Reader.index_read` — the fast path taking a
precomputed index of row offsets and bypassing the stored index lookup: every
stored item is returned, with rows sliced by consecutive offsets of the
supplied index. -/
def index_read (g : SGroup) (ix : List Nat) : RData :=
  let sel := List.range g.items.length
  ⟨g.items,
    sel.map (fun i => sliceRows g.times (ix.getD i 0) (ix.getD (i + 1) 0)),
    sel.map (fun i => sliceRows g.features (ix.getD i 0) (ix.getD (i + 1) 0))⟩

/-- Embedding of the top-level `read`: open the file and group (a missing
group fails), read through the stored index — or through the supplied
precomputed index when one is given — and zip the items with the per-item
times and features into association lists (Python dicts keyed by item,
preserving insertion order). -/
def read (filename groupname : String) (from_item to_item : Option String)
    (from_time to_time : Option Rat) (index : Option (List Nat)) (fs : HFile) :
    Except HErr (List (String × List (List Rat)) × List (String × List (List Rat))) :=
  match findGroup fs groupname with
  | none => .error (.keyError "no such group")
  | some g =>
    let data := match index with
      | none => readGroup g from_item to_item from_time to_time
      | some ix => .ok (index_read g ix)
    match data with
    | .error e => .error e
    | .ok d => .ok (d.items.zip d.times, d.items.zip d.features)

/-- Concrete per-item times: two frames for item `a`, one frame for item `b`. -/
def tdEx : List (List (List Rat)) := [[[0], [1]], [[5]]]

/-- Concrete per-item dense features matching `tdEx` row counts. -/
def fdEx : List (List (List Rat)) := [[[1, 2], [3, 4]], [[5, 6]]]

end H5f1

namespace H5f2

/-- C1: if the target group exists and the compatibility check fails,
`Writer.write` raises `IOError` and performs no writes: the file state is
unchanged and the event trace is empty (no dataset append, no attribute
modification). -/
theorem write_incompatible_no_mutation (w : Writer) (data : WData) (gn : String)
    (fs : FileState) (group : GroupState)
    (hg : findGroup fs gn = some group)
    (hc : w.is_compatible group data = false) :
    (w.write data gn fs).err = some (.io "data is not appendable to the group") ∧
    (w.write data gn fs).fs = fs ∧ (w.write data gn fs).events = [] := by
  simp [Writer.write, hg, hc]

/-- Witness for C1 at a concrete incompatible group (wrong version attribute). -/
theorem write_incompatible_no_mutation_w :
    (findGroup fsEx "features" = some grEx ∧ wrEx.is_compatible grEx dataEx = false) ∧
    ((wrEx.write dataEx "features" fsEx).err =
        some (.io "data is not appendable to the group") ∧
      (wrEx.write dataEx "features" fsEx).fs = fsEx ∧
      (wrEx.write dataEx "features" fsEx).events = []) :=
  ⟨⟨by decide, by decide⟩,
   write_incompatible_no_mutation wrEx dataEx "features" fsEx grEx (by decide) (by decide)⟩

/-- C2: constructing a `Writer` with a chunk size strictly below 0.008 MB
raises `IOError`, whatever the state of the file on disk, and the file is not
mutated (no dataset is created). -/
theorem init_chunk_floor (fn : String) (fe h5 : Bool) (cs : Rat) (fs : FileState)
    (h : cs < 8/1000) :
    isIOErr (Writer.init fn fe h5 cs fs).1 = true ∧ (Writer.init fn fe h5 cs fs).2 = fs := by
  unfold Writer.init
  cases hb : (fe && !h5) <;> simp [hb, h, isIOErr]

/-- Witness for C2 at `chunk_size = 0.001`. -/
theorem init_chunk_floor_w :
    ((1/1000 : Rat) < 8/1000) ∧
    (isIOErr (Writer.init "test.h5" false false (1/1000) []).1 = true ∧
      (Writer.init "test.h5" false false (1/1000) []).2 = []) :=
  ⟨by norm_num, init_chunk_floor "test.h5" false false (1/1000) [] (by norm_num)⟩

/-- C3: every successful `Writer.write` call appends to the datasets in
exactly the order index, items, features, times. -/
theorem write_append_order (w : Writer) (data : WData) (gn : String) (fs : FileState)
    (h : (w.write data gn fs).err = none) :
    (w.write data gn fs).events.filter isWriteEv =
      [.writeDS gn indexName, .writeDS gn data.itemsName,
       .writeDS gn data.featName, .writeDS gn data.timesName] := by
  cases hg : findGroup fs gn with
  | none => simp [Writer.write, hg, isWriteEv]
  | some g =>
    cases hc : w.is_compatible g data with
    | false => simp [Writer.write, hg, hc] at h
    | true => simp [Writer.write, hg, hc, isWriteEv]

/-- Witness for C3: a successful write into an empty file. -/
theorem write_append_order_w :
    (wrEx.write dataEx "g" []).err = none ∧
    (wrEx.write dataEx "g" []).events.filter isWriteEv =
      [.writeDS "g" indexName, .writeDS "g" dataEx.itemsName,
       .writeDS "g" dataEx.featName, .writeDS "g" dataEx.timesName] :=
  ⟨rfl, write_append_order wrEx dataEx "g" [] rfl⟩

/-- C4: when the target group does not exist, `Writer.write` creates it,
writes the version attribute, and then creates (without populating) the
features, times, items and index datasets in that order, sized by the
chunk-size policy, before appending the data. -/
theorem write_create_path (w : Writer) (data : WData) (gn : String) (fs : FileState)
    (h : findGroup fs gn = none) :
    (w.write data gn fs).events =
      [.createGroup gn, .setAttr gn "version", .setAttr gn "format",
       .createDS gn data.featName (featRowsPerChunk data.dim w.chunk_size),
       .createDS gn data.timesName (featRowsPerChunk data.dim w.chunk_size),
       .createDS gn data.itemsName (max 10 (nbLines 20 1 (w.chunk_size * 1000))),
       .createDS gn indexName (indexRowsPerChunk w.chunk_size),
       .writeDS gn indexName, .writeDS gn data.itemsName,
       .writeDS gn data.featName, .writeDS gn data.timesName] := by
  simp [Writer.write, h]

/-- Witness for C4: creating the group in an empty file. -/
theorem write_create_path_w :
    findGroup ([] : FileState) "g2" = none ∧
    (wrEx.write dataEx "g2" []).events =
      [.createGroup "g2", .setAttr "g2" "version", .setAttr "g2" "format",
       .createDS "g2" dataEx.featName (featRowsPerChunk dataEx.dim wrEx.chunk_size),
       .createDS "g2" dataEx.timesName (featRowsPerChunk dataEx.dim wrEx.chunk_size),
       .createDS "g2" dataEx.itemsName (max 10 (nbLines 20 1 (wrEx.chunk_size * 1000))),
       .createDS "g2" indexName (indexRowsPerChunk wrEx.chunk_size),
       .writeDS "g2" indexName, .writeDS "g2" dataEx.itemsName,
       .writeDS "g2" dataEx.featName, .writeDS "g2" dataEx.timesName] :=
  ⟨rfl, write_create_path wrEx dataEx "g2" [] rfl⟩

/-- C5: passing the compatibility check requires (a) the group's version
attribute to equal the writer's version, (b) the group's declared storage
mode to match the new data's mode, and (c) all expected dataset names to be
present, additionally including `frames` and `coordinates` for sparse data. -/
theorem is_compatible_necessary (w : Writer) (g : GroupState) (data : WData)
    (h : w.is_compatible g data = true) :
    g.version = w.version ∧ g.format = data.dformat ∧
    hasDS g data.itemsName = true ∧ hasDS g data.timesName = true ∧
    hasDS g data.featName = true ∧ hasDS g indexName = true ∧
    (data.dformat = "sparse" →
      hasDS g "frames" = true ∧ hasDS g "coordinates" = true) := by
  unfold Writer.is_compatible Writer.is_same_version Writer.is_same_datasets
    featIsCompatible dsIsCompatible at h
  by_cases hs : data.dformat = "sparse" <;>
    simp [hs, beq_iff_eq] at h <;>
    obtain ⟨⟨h1, h2, h3, h4, h5⟩, ⟨h6, _⟩, _⟩ := h <;>
    simp_all

/-- Witness for C5 at a concrete compatible group. -/
theorem is_compatible_necessary_w :
    wrEx.is_compatible grOk dataEx = true ∧
    (grOk.version = wrEx.version ∧ grOk.format = dataEx.dformat ∧
      hasDS grOk dataEx.itemsName = true ∧ hasDS grOk dataEx.timesName = true ∧
      hasDS grOk dataEx.featName = true ∧ hasDS grOk indexName = true ∧
      (dataEx.dformat = "sparse" →
        hasDS grOk "frames" = true ∧ hasDS grOk "coordinates" = true)) :=
  ⟨by decide, is_compatible_necessary wrEx grOk dataEx (by decide)⟩

/-- C6: on group creation the items dataset's row chunking is the maximum of
10 and the value computed from the estimated 20-byte identifier length and
the chunk byte budget, so a chunk never holds fewer than 10 rows. -/
theorem items_chunk_rows_floor (w : Writer) (data : WData) (gn : String) (fs : FileState)
    (h : findGroup fs gn = none) :
    Event.createDS gn data.itemsName (max 10 (nbLines 20 1 (w.chunk_size * 1000)))
      ∈ (w.write data gn fs).events ∧
    10 ≤ max 10 (nbLines 20 1 (w.chunk_size * 1000)) := by
  refine ⟨?_, Nat.le_max_left _ _⟩
  simp [Writer.write, h]

/-- Witness for C6: group creation in an empty file. -/
theorem items_chunk_rows_floor_w :
    findGroup ([] : FileState) "grp" = none ∧
    (Event.createDS "grp" dataEx.itemsName (max 10 (nbLines 20 1 (wrEx.chunk_size * 1000)))
        ∈ (wrEx.write dataEx "grp" []).events ∧
      10 ≤ max 10 (nbLines 20 1 (wrEx.chunk_size * 1000))) :=
  ⟨rfl, items_chunk_rows_floor wrEx dataEx "grp" [] rfl⟩

end H5f2

namespace H5f1

/-- C8: `simple_write` is exactly `write` on a single-element item list with
the dense format and the default chunk size and sparsity, for every item
name, and in particular for the default item name `item`. -/
theorem simple_write_eq_write (filename group : String)
    (times features : List (List Rat)) (item : String) (fs : HFile) :
    simple_write filename group times features item fs =
      write filename group [item] [times] [features] "dense" (1/10) (1/10) fs ∧
    simple_write filename group times features "item" fs =
      write filename group ["item"] [times] [features] "dense" (1/10) (1/10) fs :=
  ⟨rfl, rfl⟩

/-- C10: when a precomputed index is supplied, `read` takes the `index_read`
fast path and its result does not depend on the `from_item`, `to_item`,
`from_time` and `to_time` arguments at all. -/
theorem read_with_index_ignores_range_args (filename groupname : String)
    (ix : List Nat) (fi ti fi2 ti2 : Option String) (ft tu ft2 tu2 : Option Rat)
    (fs : HFile) :
    read filename groupname fi ti ft tu (some ix) fs =
      read filename groupname fi2 ti2 ft2 tu2 (some ix) fs := rfl

end H5f1

namespace H5f1

/-- The cumulative index always starts with offset 0. -/
theorem cumIndex_exists_cons (l : List Nat) : ∃ t, cumIndex l = 0 :: t := by
  cases l with
  | nil => exact ⟨[], rfl⟩
  | cons n rest => exact ⟨_, rfl⟩

/-- The cumulative index has one more entry than the item count. -/
theorem cumIndex_length (l : List Nat) : (cumIndex l).length = l.length + 1 := by
  induction l with
  | nil => rfl
  | cons n rest ih => simp [cumIndex, ih]

/-- In-bounds `getD` commutes with `map`. -/
theorem getD_map_lt (f : Nat → Nat) (l : List Nat) (i : Nat) (h : i < l.length) :
    (l.map f).getD i 0 = f (l.getD i 0) := by
  simp [List.getD_eq_getElem?_getD, List.getElem?_map, List.getElem?_eq_getElem h]

/-- Slicing after a leading block with both offsets shifted by its length. -/
theorem sliceRows_append {α : Type} (c fl : List α) (lo hi : Nat) :
    sliceRows (c ++ fl) (c.length + lo) (c.length + hi) = sliceRows fl lo hi := by
  unfold sliceRows
  rw [List.drop_append, Nat.add_sub_add_left]

/-- Slicing the concatenated rows at consecutive cumulative offsets recovers
each item's block. -/
theorem slice_flatten_all {α : Type} : ∀ (chunks : List (List α)),
    (List.range chunks.length).map
      (fun i => sliceRows chunks.flatten
        ((cumIndex (chunks.map List.length)).getD i 0)
        ((cumIndex (chunks.map List.length)).getD (i + 1) 0)) = chunks
  | [] => rfl
  | c :: cs => by
    have ih := slice_flatten_all cs
    obtain ⟨t, ht⟩ := cumIndex_exists_cons (cs.map List.length)
    rw [List.length_cons, List.range_succ_eq_map, List.map_cons, List.map_map]
    have hcum : cumIndex ((c :: cs).map List.length) =
        0 :: (cumIndex (cs.map List.length)).map (fun m => c.length + m) := rfl
    congr 1
    · -- the head block: rows 0 to c.length
      rw [hcum]
      show sliceRows (c :: cs).flatten 0
        (((cumIndex (cs.map List.length)).map (fun m => c.length + m)).getD 0 0) = c
      rw [ht]
      show sliceRows (c ++ cs.flatten) 0 (c.length + 0) = c
      unfold sliceRows
      simp [List.take_left]
    · -- the remaining blocks, shifted by c.length
      refine .trans (List.map_congr_left ?_) ih
      intro i hi
      rw [List.mem_range] at hi
      have h1 : i < (cumIndex (cs.map List.length)).length := by
        rw [cumIndex_length, List.length_map]; omega
      have h2 : i + 1 < (cumIndex (cs.map List.length)).length := by
        rw [cumIndex_length, List.length_map]; omega
      show sliceRows (c :: cs).flatten
          ((cumIndex ((c :: cs).map List.length)).getD (i + 1) 0)
          ((cumIndex ((c :: cs).map List.length)).getD (i + 1 + 1) 0) =
        sliceRows cs.flatten
          ((cumIndex (cs.map List.length)).getD i 0)
          ((cumIndex (cs.map List.length)).getD (i + 1) 0)
      rw [hcum]
      show sliceRows (c ++ cs.flatten)
          (((cumIndex (cs.map List.length)).map (fun m => c.length + m)).getD i 0)
          (((cumIndex (cs.map List.length)).map (fun m => c.length + m)).getD (i + 1) 0) = _
      rw [getD_map_lt _ _ _ h1, getD_map_lt _ _ _ h2, sliceRows_append]

end H5f1

namespace H5f1

/-- A list passing the uniqueness check has no duplicates. -/
theorem uniqueItems_nodup : ∀ {l : List String}, uniqueItems l = true → l.Nodup
  | [], _ => List.nodup_nil
  | x :: rest, h => by
    unfold uniqueItems at h
    rw [Bool.and_eq_true] at h
    refine List.nodup_cons.mpr ⟨?_, uniqueItems_nodup h.2⟩
    intro hm
    have hx := h.1
    rw [Bool.not_eq_true', decide_eq_false_iff_not] at hx
    exact hx hm

/-- The head of a list is found at position 0. -/
theorem idxOf_head (x : String) (l : List String) : idxOf (x :: l) x = some 0 := by
  simp [idxOf]

/-- In a duplicate-free list the last element is found at the last position. -/
theorem idxOf_getLast : ∀ (l : List String) (h : l ≠ []), l.Nodup →
    idxOf l (l.getLast h) = some (l.length - 1)
  | [x], _, _ => by simp [idxOf, List.getLast]
  | x :: y :: rest, _, hnd => by
    have hne : (y :: rest) ≠ [] := List.cons_ne_nil y rest
    have hgl : (x :: y :: rest).getLast (List.cons_ne_nil x (y :: rest)) =
        (y :: rest).getLast hne := List.getLast_cons hne
    have hx : x ∉ y :: rest := (List.nodup_cons.mp hnd).1
    have hxg : x ≠ (y :: rest).getLast hne := by
      intro he
      exact hx (he ▸ List.getLast_mem hne)
    have ih := idxOf_getLast (y :: rest) hne (List.nodup_cons.mp hnd).2
    unfold idxOf
    rw [hgl, if_neg hxg, ih]
    simp

/-- Reading every position of a list in order reproduces the list. -/
theorem map_getD_range {α : Type} (d : α) : ∀ (l : List α),
    (List.range l.length).map (fun i => l.getD i d) = l
  | [] => rfl
  | x :: rest => by
    rw [List.length_cons, List.range_succ_eq_map, List.map_cons, List.map_map]
    congr 1
    refine .trans (List.map_congr_left ?_) (map_getD_range d rest)
    intro i _
    rfl

/-- Matching row counts give equal per-item length lists. -/
theorem rowsMatch_map_length : ∀ (fd td : List (List (List Rat))),
    rowsMatch fd td = true → fd.map List.length = td.map List.length
  | [], [], _ => rfl
  | [], t :: ts, h => by simp [rowsMatch] at h
  | f :: fs, [], h => by simp [rowsMatch] at h
  | f :: fs, t :: ts, h => by
    unfold rowsMatch at h
    simp only [List.length_cons, List.zip_cons_cons, List.all_cons,
      Bool.and_eq_true, beq_iff_eq] at h
    obtain ⟨hlen, hft, hall⟩ := h
    have ih := rowsMatch_map_length fs ts (by
      unfold rowsMatch
      rw [Bool.and_eq_true]
      exact ⟨by simpa using hlen, hall⟩)
    simp [hft, ih]

end H5f1

namespace H5f1

/-- C9: writing a valid item list with its times and dense features into a
fresh group and reading the same file and group back reconstructs identical
items, times and feature matrices, as per-item association lists keyed by the
item identifiers in their original order. -/
theorem write_read_roundtrip (filename groupname : String)
    (items_data : List String) (times_data features_data : List (List (List Rat)))
    (cs sp : Rat) (fs : HFile)
    (hI : validItems items_data = true) (hT : validTimes times_data = true)
    (hF : validFeatures features_data times_data = true)
    (hlen : items_data.length = features_data.length)
    (hne : items_data ≠ [])
    (hcs : ¬ cs < 8/1000)
    (habs : findGroup fs groupname = none) :
    (write filename groupname items_data times_data features_data
        "dense" cs sp fs).err = none ∧
    read filename groupname none none none none none
        (write filename groupname items_data times_data features_data
          "dense" cs sp fs).fs =
      .ok (items_data.zip times_data, items_data.zip features_data) := by
  have hw : write filename groupname items_data times_data features_data
      "dense" cs sp fs =
      ⟨none, (groupname, mkGroup items_data times_data features_data "dense") :: fs,
        ["open", "create-group", "append"]⟩ := by
    simp [write, hI, hT, hF, hcs, habs, parse_dformat_ok]
  obtain ⟨x, xs, rfl⟩ : ∃ x xs, items_data = x :: xs := by
    cases items_data with
    | nil => exact absurd rfl hne
    | cons a l => exact ⟨a, l, rfl⟩
  have hnd : (x :: xs).Nodup := by
    unfold validItems at hI
    rw [Bool.and_eq_true] at hI
    exact uniqueItems_nodup hI.2
  have hrm : rowsMatch features_data times_data = true := by
    unfold validFeatures at hF
    rw [Bool.and_eq_true] at hF
    exact hF.2
  have hmap := rowsMatch_map_length _ _ hrm
  have hfd_td : features_data.length = times_data.length := by
    have := congrArg List.length hmap
    simpa using this
  have hlen2 : xs.length + 1 = features_data.length := by simpa using hlen
  have hgl : (x :: xs).getLast? = some ((x :: xs).getLast (List.cons_ne_nil x xs)) :=
    List.getLast?_eq_getLast _ _
  have hidx0 : idxOf (x :: xs) x = some 0 := idxOf_head x xs
  have hidxl : idxOf (x :: xs) ((x :: xs).getLast (List.cons_ne_nil x xs)) =
      some ((x :: xs).length - 1) := idxOf_getLast _ _ hnd
  have h_its : (List.range (xs.length + 1)).map (fun i => (x :: xs).getD i "") = x :: xs := by
    have := map_getD_range "" (x :: xs)
    simpa using this
  have h_tms : (List.range (xs.length + 1)).map (fun i =>
      sliceRows times_data.flatten
        ((cumIndex (features_data.map List.length)).getD i 0)
        ((cumIndex (features_data.map List.length)).getD (i + 1) 0)) = times_data := by
    rw [hmap, hlen2, hfd_td]
    exact slice_flatten_all times_data
  have h_fts : (List.range (xs.length + 1)).map (fun i =>
      sliceRows features_data.flatten
        ((cumIndex (features_data.map List.length)).getD i 0)
        ((cumIndex (features_data.map List.length)).getD (i + 1) 0)) = features_data := by
    rw [hlen2]
    exact slice_flatten_all features_data
  have hread : readGroup (mkGroup (x :: xs) times_data features_data "dense")
      none none none none = .ok ⟨x :: xs, times_data, features_data⟩ := by
    unfold readGroup
    simp only [mkGroup, List.head?_cons, hgl, hidx0, hidxl, List.length_cons,
      Nat.add_sub_cancel, Nat.sub_zero, Nat.not_lt_zero, Nat.zero_add,
      List.map_id', if_false, h_its, h_tms, h_fts]
  constructor
  · rw [hw]
  · rw [hw]
    unfold read
    simp only [findGroup, eq_self_iff_true, if_true, hread]

end H5f1

namespace H5f1

/-- Witness for C9 at two concrete items with dense rational features. -/
theorem write_read_roundtrip_w :
    (validItems ["a", "b"] = true ∧ validTimes tdEx = true ∧
      validFeatures fdEx tdEx = true ∧ (["a", "b"] : List String).length = fdEx.length ∧
      (["a", "b"] : List String) ≠ [] ∧ ¬ (1/10 : Rat) < 8/1000 ∧
      findGroup [] "g" = none) ∧
    ((write "f.h5" "g" ["a", "b"] tdEx fdEx "dense" (1/10) (1/10) []).err = none ∧
      read "f.h5" "g" none none none none none
          (write "f.h5" "g" ["a", "b"] tdEx fdEx "dense" (1/10) (1/10) []).fs =
        .ok ((["a", "b"] : List String).zip tdEx, (["a", "b"] : List String).zip fdEx)) :=
  ⟨⟨by decide, by decide, by decide, rfl, by decide, by norm_num, rfl⟩,
   write_read_roundtrip "f.h5" "g" ["a", "b"] tdEx fdEx (1/10) (1/10) []
     (by decide) (by decide) (by decide) rfl (by decide) (by norm_num) rfl⟩

end H5f1
